import Mathlib

/-!
Shallow embedding of the branch-keeper core (clean / merge / fetch) for
verification.

The external git tool is modelled by a `World`: a snapshot of the repository
and of the outcome every git invocation would have during the run.  Each
JavaScript function is translated into a pure Lean function over a `World`;
effectful runs return a `RunOut` carrying the trace of read-only queries
(`ReadQ`), the trace of mutating commands (`GitCmd`), the success/failure
counters, the error-level log entries (`LogMsg`), the branch that is checked
out when the run ends, and the explicit `process.exit` code if one was
issued (a plain return lets the node process end with code 0).

Modelling choices for the external tool, checked against real git:
* `git ls-remote --heads <remote>` yields the remote's head names, or fails
  (`World.remoteHeads r = none`).
* `git ls-remote --heads <remote> <pattern>` tail-matches the pattern at a
  path-component boundary (pattern `foo` also matches head `bar/foo`); an
  empty pattern (dropped by the shell) lists all heads
  (`lsRemotePatternHit`).
* a successful `git checkout b` (also `git checkout -b b r/b`) makes `b`
  the checked-out branch; a failed one leaves it unchanged.

The `git for-each-ref --format="%(refname:short) %(upstream:short)"` output
is modelled one step after tokenisation: `World.trackingQ` is the list of
lines, each line the list of its space-separated tokens, so that the
JavaScript destructuring `[branch, upstream]` with its falsy checks can be
embedded faithfully (`parseTracking`).  Only error-level log calls are
traced in `RunOut.log`.
-/

namespace BranchKeeper

/-- A mutating git invocation issued by the tool. -/
inductive GitCmd
  | checkout (branch : String)
  | merge (ffOnly : Bool) (branch : String)
  | deleteBr (branch : String) (force : Bool)
  | checkoutTrack (branch : String) (remote : String)
  | fetchPrune
deriving DecidableEq

/-- A read-only git query issued by the tool. -/
inductive ReadQ
  | isRepoQ
  | statusQ
  | currentQ
  | localBranchesListQ
  | trackingRefsQ
  | existsQ (branch : String)
  | unpushedQ (branch : String)
  | lsRemoteHeadsQ (remote : String)
  | lsRemotePatternQ (remote : String) (pat : String)
deriving DecidableEq

/-- Error-level log entries emitted by the tool. -/
inductive LogMsg
  | notRepo
  | dirtyWorktree
  | sourceMissing
  | sourceUnpushed
  | branchListFailed
  | trackingListFailed
  | remoteListFailed (remote : String)
  | mergeFailed
  | deleteFailed
  | createFailed
  | restoreFailed
  | fetchPruneFailed
deriving DecidableEq

/-- Snapshot of the repository and of the outcome every git invocation would
have during one run. -/
structure World where
  isRepo : Bool
  hasUncommitted : Bool
  current : String
  localBranchesQ : Option (List String)
  branchExists : String → Bool
  hasUnpushed : String → Bool
  remoteHeads : String → Option (List String)
  trackingQ : Option (List (List String))
  checkoutOk : String → Bool
  mergeOk : String → String → Bool → Bool
  deleteOk : String → Bool → Bool
  checkoutTrackOk : String → String → Bool
  fetchPruneOk : Bool
  confirmAnswer : Bool

/-- Observable outcome of one command run. -/
structure RunOut where
  reads : List ReadQ
  muts : List GitCmd
  succeeded : Nat
  failed : Nat
  log : List LogMsg
  current : String
  exitCalled : Option Nat

/-- Outcome of one per-item step inside a batch loop. -/
structure StepOut where
  ok : Bool
  cur : String
  muts : List GitCmd
  log : List LogMsg

/-- Outcome of a whole batch loop. -/
structure LoopOut where
  succeeded : Nat
  failed : Nat
  muts : List GitCmd
  log : List LogMsg
  cur : String

/-- The exit code the node process ends with: the explicitly requested one,
or 0 when the command simply returned. -/
def observedExit (o : RunOut) : Nat := o.exitCalled.getD 0

/-- Split a character list at the first occurrence of `sep`. -/
def splitFirst (sep : Char) : List Char → Option (List Char × List Char)
  | [] => none
  | c :: cs =>
      if c = sep then some ([], cs)
      else (splitFirst sep cs).map (fun p => (c :: p.1, p.2))

/-- `upstream.split("/")` followed by taking the first component as the
remote and rejoining the rest with "/" as the remote branch name
(clean.js: `const [remote, ...branchParts] = upstream.split("/")`). -/
def splitUpstream (u : String) : String × String :=
  match splitFirst '/' u.data with
  | none => (u, "")
  | some p => (String.mk p.1, String.mk p.2)

/-- Suffix test on strings, via their character lists. -/
def strEndsWith (s suffix : String) : Bool :=
  List.isSuffixOf suffix.data s.data

/-- Modelled behaviour of `git ls-remote --heads <remote> <pattern>` being
non-empty, given the remote's head names: an empty pattern (the shell drops
the empty argument) lists all heads; a non-empty pattern matches a head when
it equals the full ref name or a tail of it at a path-component boundary. -/
def lsRemotePatternHit (heads : List String) (pat : String) : Bool :=
  if pat = "" then !heads.isEmpty
  else heads.any (fun h =>
    ("refs/heads/" ++ h) = pat || strEndsWith ("refs/heads/" ++ h) ("/" ++ pat))

/-- First-occurrence deduplication, the iteration order of a JavaScript
`Set` built by insertion. -/
def insertionDedup (l : List String) : List String :=
  l.foldl (fun acc r => if r ∈ acc then acc else acc ++ [r]) []

/-- The tracking pairs kept by both `cleanBranches` versions from the
tokenised `for-each-ref` output: lines whose first two tokens (branch,
upstream) are present and truthy, with upstream not the `(null)` marker. -/
def parseTracking (lines : List (List String)) : List (String × String) :=
  lines.filterMap (fun toks =>
    if (toks.get? 0).getD "" ≠ "" ∧ (toks.get? 1).getD "" ≠ "" ∧
        (toks.get? 1).getD "" ≠ "(null)"
    then some ((toks.get? 0).getD "", (toks.get? 1).getD "") else none)

/-- Options consumed by `cleanBranches`. -/
structure CleanOpts where
  ignore : List String
  force : Bool
  listOnly : Bool
  silent : Bool
  protectedBranches : List String

/-- The skip test of the clean planner loop: current branch, ignored
branches and protected branches are never deletion candidates
(`isProtectedBranch` is list membership). -/
def skipBranch (cur : String) (o : CleanOpts) (b : String) : Bool :=
  b == cur || o.ignore.contains b || o.protectedBranches.contains b

/-- The planning loop shared textually by both `cleanBranches` versions,
parameterised by the remote-existence check they differ in. -/
def cleanPlanCore (existsChk : String → String → Bool) (cur : String)
    (o : CleanOpts) (pairs : List (String × String)) : List String :=
  pairs.filterMap (fun p =>
    if skipBranch cur o p.1 then none
    else if existsChk (splitUpstream p.2).1 (splitUpstream p.2).2 then none
    else some p.1)

/-- clean.js `checkRemoteBranch`: one `git ls-remote --heads <remote>
<branch>` per candidate; false when the command fails. -/
def checkRemoteBranch (w : World) (branch remote : String) : Bool :=
  match w.remoteHeads remote with
  | none => false
  | some heads => lsRemotePatternHit heads branch

/-- The distinct remotes referenced by the tracking pairs, in first-use
order (`new Set(trackingBranches.map(([_, u]) => u.split("/")[0]))`). -/
def remotesOf (pairs : List (String × String)) : List String :=
  insertionDedup (pairs.map (fun p => (splitUpstream p.2).1))

/-- The batched version's remote cache: one full listing per distinct
remote, an empty set when the listing fails. -/
def buildRemoteCache (w : World) (remotes : List String) :
    List (String × List String) :=
  remotes.map (fun r => (r, (w.remoteHeads r).getD []))

/-- Cache lookup (`branchSet && branchSet.has(remoteBranch)`). -/
def cacheHit (cache : List (String × List String)) (remote branch : String) :
    Bool :=
  match cache.lookup remote with
  | some s => s.contains branch
  | none => false

/-- Deletion plan of the per-branch-query `cleanBranches`. -/
def cleanV1Plan (w : World) (o : CleanOpts) : List String :=
  match w.trackingQ with
  | none => []
  | some lines =>
      cleanPlanCore (fun r rb => checkRemoteBranch w rb r) w.current o
        (parseTracking lines)

/-- Deletion plan of the batched-remote-map `cleanBranches`. -/
def cleanV2Plan (w : World) (o : CleanOpts) : List String :=
  match w.trackingQ with
  | none => []
  | some lines =>
      cleanPlanCore
        (cacheHit (buildRemoteCache w (remotesOf (parseTracking lines))))
        w.current o (parseTracking lines)

/-- The deletion loop of `cleanBranches` (`deleteBranch` per planned branch,
counting successes and failures, never stopping early). -/
def runDeleteLoop (w : World) (force : Bool) : List String → LoopOut
  | [] => ⟨0, 0, [], [], ""⟩
  | b :: bs =>
      let ok := w.deleteOk b force
      let rest := runDeleteLoop w force bs
      ⟨(if ok then 1 else 0) + rest.succeeded,
       (if ok then 0 else 1) + rest.failed,
       GitCmd.deleteBr b force :: rest.muts,
       (if ok then [] else [LogMsg.deleteFailed]) ++ rest.log,
       ""⟩

/-- The read queries the per-branch version issues while planning: one
pattern query per pair surviving the skip test. -/
def cleanV1PatternReads (w : World) (o : CleanOpts)
    (pairs : List (String × String)) : List ReadQ :=
  pairs.filterMap (fun p =>
    if skipBranch w.current o p.1 then none
    else some (ReadQ.lsRemotePatternQ (splitUpstream p.2).1
      (splitUpstream p.2).2))

/-- The per-branch-query version of `cleanBranches` (clean.js, first
version): per-candidate `checkRemoteBranch`, `process.exit(1)` when the
user declines the confirmation, plain return otherwise. -/
def cleanBranchesV1 (w : World) (o : CleanOpts) : RunOut :=
  if w.isRepo then
    match w.trackingQ with
    | none =>
        ⟨[ReadQ.isRepoQ, ReadQ.currentQ, ReadQ.trackingRefsQ], [], 0, 0,
         [LogMsg.trackingListFailed], w.current, none⟩
    | some lines =>
        let pairs := parseTracking lines
        let reads := [ReadQ.isRepoQ, ReadQ.currentQ, ReadQ.trackingRefsQ] ++
          cleanV1PatternReads w o pairs
        let plan := cleanV1Plan w o
        if plan.isEmpty then ⟨reads, [], 0, 0, [], w.current, none⟩
        else if o.listOnly then ⟨reads, [], 0, 0, [], w.current, none⟩
        else if !o.silent && !w.confirmAnswer then
          ⟨reads, [], 0, 0, [], w.current, some 1⟩
        else
          let L := runDeleteLoop w o.force plan
          ⟨reads, L.muts, L.succeeded, L.failed, L.log, w.current, none⟩
  else ⟨[ReadQ.isRepoQ], [], 0, 0, [LogMsg.notRepo], w.current, none⟩

/-- Error log entries of the batched cache build (one `console.error` per
failed remote listing). -/
def cacheFailLog (w : World) (remotes : List String) : List LogMsg :=
  remotes.filterMap (fun r =>
    if (w.remoteHeads r).isNone then some (LogMsg.remoteListFailed r)
    else none)

/-- The batched-remote-map version of `cleanBranches` (clean.js, second
version): one listing per distinct remote before planning,
`process.exit(0)` when the user declines, `process.exit(0)` at the end of a
full run (after a fire-and-forget `git fetch -p` when not silent). -/
def cleanBranchesV2 (w : World) (o : CleanOpts) : RunOut :=
  if w.isRepo then
    match w.trackingQ with
    | none =>
        ⟨[ReadQ.isRepoQ, ReadQ.currentQ, ReadQ.trackingRefsQ], [], 0, 0,
         [LogMsg.trackingListFailed], w.current, none⟩
    | some lines =>
        let pairs := parseTracking lines
        let remotes := remotesOf pairs
        let reads := [ReadQ.isRepoQ, ReadQ.currentQ, ReadQ.trackingRefsQ] ++
          remotes.map ReadQ.lsRemoteHeadsQ
        let cacheLog := cacheFailLog w remotes
        let plan := cleanV2Plan w o
        if plan.isEmpty then ⟨reads, [], 0, 0, cacheLog, w.current, none⟩
        else if o.listOnly then ⟨reads, [], 0, 0, cacheLog, w.current, none⟩
        else if !o.silent && !w.confirmAnswer then
          ⟨reads, [], 0, 0, cacheLog, w.current, some 0⟩
        else
          let L := runDeleteLoop w o.force plan
          ⟨reads,
           L.muts ++ (if !o.silent then [GitCmd.fetchPrune] else []),
           L.succeeded, L.failed,
           cacheLog ++ L.log ++
             (if !o.silent && !w.fetchPruneOk then [LogMsg.fetchPruneFailed]
              else []),
           w.current, some 0⟩
  else ⟨[ReadQ.isRepoQ], [], 0, 0, [LogMsg.notRepo], w.current, none⟩

/-- Whether a `cleanBranchesV1` run reaches the confirmation prompt and the
user declines it. -/
def cleanV1Cancelled (w : World) (o : CleanOpts) : Bool :=
  w.isRepo && w.trackingQ.isSome && !(cleanV1Plan w o).isEmpty &&
    !o.listOnly && !o.silent && !w.confirmAnswer

/-- The remote-listing queries of a run, in order. -/
def remoteQueriesOf (o : RunOut) : List String :=
  o.reads.filterMap (fun q =>
    match q with
    | ReadQ.lsRemoteHeadsQ r => some r
    | _ => none)

/-- `DEFAULT_CONFIG.protectedBranches` from config.js. -/
def defaultProtectedBranches : List String := ["main", "master", "develop"]

/-- Options consumed by `mergeToBranches`. -/
structure MergeOpts where
  source : String
  target : List String
  exclude : List String
  ffOnly : Bool
  silent : Bool

/-- merge module `mergeBranch(source, target, options)`: `git checkout
target`, then `git merge --ff-only source` (or `--no-ff`); the merge is not
attempted when the checkout fails; a successful checkout leaves `target`
checked out even if the merge then fails. -/
def mergeBranch (w : World) (cur : String) (source target : String)
    (ffOnly : Bool) : StepOut :=
  if w.checkoutOk target then
    if w.mergeOk target source ffOnly then
      ⟨true, target, [GitCmd.checkout target, GitCmd.merge ffOnly source], []⟩
    else
      ⟨false, target, [GitCmd.checkout target, GitCmd.merge ffOnly source],
       [LogMsg.mergeFailed]⟩
  else ⟨false, cur, [GitCmd.checkout target], [LogMsg.mergeFailed]⟩

/-- The merge fan-out loop of `mergeToBranches`.  As in the source, each
iteration calls `mergeBranch(branch, source, options)`: the loop variable is
passed in `mergeBranch`'s `source` position and the configured source branch
in its `target` position. -/
def runMergeLoop (w : World) (ffOnly : Bool) (source : String)
    (cur : String) : List String → LoopOut
  | [] => ⟨0, 0, [], [], cur⟩
  | t :: ts =>
      let s := mergeBranch w cur t source ffOnly
      let rest := runMergeLoop w ffOnly source s.cur ts
      ⟨(if s.ok then 1 else 0) + rest.succeeded,
       (if s.ok then 0 else 1) + rest.failed,
       s.muts ++ rest.muts, s.log ++ rest.log, rest.cur⟩

/-- Target resolution of `mergeToBranches`: the explicit list, or every
local branch when it is empty (`none` when that listing fails); in both
cases the source branch and the exclude list are filtered out. -/
def resolveMergeTargets (w : World) (o : MergeOpts) : Option (List String) :=
  if o.target.isEmpty then
    match w.localBranchesQ with
    | none => none
    | some l =>
        some (l.filter (fun b => b != o.source && !o.exclude.contains b))
  else some (o.target.filter (fun b => b != o.source && !o.exclude.contains b))

/-- merge module `mergeToBranches`: precondition checks (repository, clean
worktree, source exists, source has no unpushed commits), capture of the
current branch, target resolution, the fan-out loop, and the final
checkout back to the captured branch whose failure is only logged. -/
def mergeToBranches (w : World) (o : MergeOpts) : RunOut :=
  if w.isRepo then
    if w.hasUncommitted then
      ⟨[ReadQ.isRepoQ, ReadQ.statusQ], [], 0, 0, [LogMsg.dirtyWorktree],
       w.current, none⟩
    else if !w.branchExists o.source then
      ⟨[ReadQ.isRepoQ, ReadQ.statusQ, ReadQ.existsQ o.source], [], 0, 0,
       [LogMsg.sourceMissing], w.current, none⟩
    else if w.hasUnpushed o.source then
      ⟨[ReadQ.isRepoQ, ReadQ.statusQ, ReadQ.existsQ o.source,
        ReadQ.unpushedQ o.source], [], 0, 0, [LogMsg.sourceUnpushed],
       w.current, none⟩
    else
      let baseReads := [ReadQ.isRepoQ, ReadQ.statusQ, ReadQ.existsQ o.source,
        ReadQ.unpushedQ o.source, ReadQ.currentQ] ++
        (if o.target.isEmpty then [ReadQ.localBranchesListQ] else [])
      match resolveMergeTargets w o with
      | none =>
          ⟨baseReads, [], 0, 0, [LogMsg.branchListFailed], w.current, none⟩
      | some ts =>
          if ts.isEmpty then ⟨baseReads, [], 0, 0, [], w.current, none⟩
          else
            let L := runMergeLoop w o.ffOnly o.source w.current ts
            if w.checkoutOk w.current then
              ⟨baseReads, L.muts ++ [GitCmd.checkout w.current],
               L.succeeded, L.failed, L.log, w.current, none⟩
            else
              ⟨baseReads, L.muts ++ [GitCmd.checkout w.current],
               L.succeeded, L.failed, L.log ++ [LogMsg.restoreFailed],
               L.cur, none⟩
  else ⟨[ReadQ.isRepoQ], [], 0, 0, [LogMsg.notRepo], w.current, none⟩

/-- The fan-out loop run on the resolved targets (empty when resolution
fails), used to state that the reported counts come from the loop alone. -/
def mergeLoopOf (w : World) (o : MergeOpts) : LoopOut :=
  runMergeLoop w o.ffOnly o.source w.current
    ((resolveMergeTargets w o).getD [])

/-- Options consumed by `fetchAllBranches`. -/
structure FetchOpts where
  remote : String
  ignore : List String
  force : Bool
  silent : Bool

/-- fetch.js `createTrackingBranch`: skip (reported as success) when the
branch exists and force is off; force-delete then recreate in force mode
(the recreate is not attempted when the delete fails); otherwise
`git checkout -b branch remote/branch`, which checks the new branch out on
success. -/
def createTrackingBranch (w : World) (branch remote : String) (force : Bool)
    (cur : String) : StepOut :=
  if w.branchExists branch then
    if !force then ⟨true, cur, [], []⟩
    else if w.deleteOk branch true then
      if w.checkoutTrackOk branch remote then
        ⟨true, branch,
         [GitCmd.deleteBr branch true, GitCmd.checkoutTrack branch remote],
         []⟩
      else
        ⟨false, cur,
         [GitCmd.deleteBr branch true, GitCmd.checkoutTrack branch remote],
         [LogMsg.createFailed]⟩
    else ⟨false, cur, [GitCmd.deleteBr branch true], [LogMsg.createFailed]⟩
  else if w.checkoutTrackOk branch remote then
    ⟨true, branch, [GitCmd.checkoutTrack branch remote], []⟩
  else ⟨false, cur, [GitCmd.checkoutTrack branch remote],
    [LogMsg.createFailed]⟩

/-- The tracking-branch creation loop of `fetchAllBranches`: ignored
branches are skipped without being counted; every other remote branch is
attempted and counted, with no early stop. -/
def runFetchLoop (w : World) (remote : String) (force : Bool)
    (ignore : List String) (cur : String) : List String → LoopOut
  | [] => ⟨0, 0, [], [], cur⟩
  | b :: bs =>
      if ignore.contains b then runFetchLoop w remote force ignore cur bs
      else
        let s := createTrackingBranch w b remote force cur
        let rest := runFetchLoop w remote force ignore s.cur bs
        ⟨(if s.ok then 1 else 0) + rest.succeeded,
         (if s.ok then 0 else 1) + rest.failed,
         s.muts ++ rest.muts, s.log ++ rest.log, rest.cur⟩

/-- fetch.js `fetchAllBranches`: precondition checks, capture of the
current branch, one remote listing (empty on failure), the creation loop,
and the final checkout back to the captured branch whose failure is only
logged. -/
def fetchAllBranches (w : World) (o : FetchOpts) : RunOut :=
  if w.isRepo then
    if w.hasUncommitted then
      ⟨[ReadQ.isRepoQ, ReadQ.statusQ], [], 0, 0, [LogMsg.dirtyWorktree],
       w.current, none⟩
    else
      let baseReads := [ReadQ.isRepoQ, ReadQ.statusQ, ReadQ.currentQ,
        ReadQ.lsRemoteHeadsQ o.remote]
      let rbs := (w.remoteHeads o.remote).getD []
      let remoteLog :=
        if (w.remoteHeads o.remote).isNone
        then [LogMsg.remoteListFailed o.remote] else []
      if rbs.isEmpty then ⟨baseReads, [], 0, 0, remoteLog, w.current, none⟩
      else
        let L := runFetchLoop w o.remote o.force o.ignore w.current rbs
        if w.checkoutOk w.current then
          ⟨baseReads, L.muts ++ [GitCmd.checkout w.current],
           L.succeeded, L.failed, remoteLog ++ L.log, w.current, none⟩
        else
          ⟨baseReads, L.muts ++ [GitCmd.checkout w.current],
           L.succeeded, L.failed,
           remoteLog ++ L.log ++ [LogMsg.restoreFailed], L.cur, none⟩
  else ⟨[ReadQ.isRepoQ], [], 0, 0, [LogMsg.notRepo], w.current, none⟩

/-- The creation loop run on the listed remote branches (empty when the
listing fails), used to state that the reported counts come from the loop
alone. -/
def fetchLoopOf (w : World) (o : FetchOpts) : LoopOut :=
  runFetchLoop w o.remote o.force o.ignore w.current
    ((w.remoteHeads o.remote).getD [])

/-- A repository with branches main, dev and hotfix, main checked out, a
clean worktree, nothing unpushed, and every git operation succeeding. -/
def wC1 : World :=
  { isRepo := true, hasUncommitted := false, current := "main",
    localBranchesQ := some ["main", "dev", "hotfix"],
    branchExists := fun b => b == "main" || b == "dev" || b == "hotfix",
    hasUnpushed := fun _ => false,
    remoteHeads := fun _ => none,
    trackingQ := none,
    checkoutOk := fun _ => true,
    mergeOk := fun _ _ _ => true,
    deleteOk := fun _ _ => true,
    checkoutTrackOk := fun _ _ => true,
    fetchPruneOk := true, confirmAnswer := true }

/-- Merge hotfix into the single explicit target dev, fast-forward only. -/
def oC1 : MergeOpts :=
  { source := "hotfix", target := ["dev"], exclude := [], ffOnly := true,
    silent := false }

/-- The same repository as `wC1`, for the merge-plan counterexample. -/
def wC2x : World :=
  { isRepo := true, hasUncommitted := false, current := "main",
    localBranchesQ := some ["main", "dev", "hotfix"],
    branchExists := fun b => b == "main" || b == "dev" || b == "hotfix",
    hasUnpushed := fun _ => false,
    remoteHeads := fun _ => none,
    trackingQ := none,
    checkoutOk := fun _ => true,
    mergeOk := fun _ _ _ => true,
    deleteOk := fun _ _ => true,
    checkoutTrackOk := fun _ _ => true,
    fetchPruneOk := true, confirmAnswer := true }

/-- Merge hotfix with an empty explicit target list and no excludes, so the
targets are resolved from the local branch list. -/
def oC2x : MergeOpts :=
  { source := "hotfix", target := [], exclude := [], ffOnly := true,
    silent := false }

/-- A repository where local x tracks origin/x and origin advertises no
branches. -/
def wC2w : World :=
  { isRepo := true, hasUncommitted := false, current := "main",
    localBranchesQ := none,
    branchExists := fun _ => true,
    hasUnpushed := fun _ => false,
    remoteHeads := fun _ => some [],
    trackingQ := some [["x", "origin/x"]],
    checkoutOk := fun _ => true,
    mergeOk := fun _ _ _ => true,
    deleteOk := fun _ _ => true,
    checkoutTrackOk := fun _ _ => true,
    fetchPruneOk := true, confirmAnswer := true }

/-- Clean options with force on and main protected. -/
def oC2w : CleanOpts :=
  { ignore := [], force := true, listOnly := false, silent := false,
    protectedBranches := ["main"] }

/-- Three tracked branches over two distinct remotes (origin twice, up
once); the up listing fails. -/
def wC3 : World :=
  { isRepo := true, hasUncommitted := false, current := "main",
    localBranchesQ := none,
    branchExists := fun _ => true,
    hasUnpushed := fun _ => false,
    remoteHeads := fun r => if r == "origin" then some ["a"] else none,
    trackingQ := some [["a", "origin/a"], ["b", "origin/b"], ["c", "up/c"]],
    checkoutOk := fun _ => true,
    mergeOk := fun _ _ _ => true,
    deleteOk := fun _ _ => true,
    checkoutTrackOk := fun _ _ => true,
    fetchPruneOk := true, confirmAnswer := true }

/-- Default-like clean options. -/
def oC3 : CleanOpts :=
  { ignore := [], force := false, listOnly := false, silent := false,
    protectedBranches := ["main", "master", "develop"] }

/-- A branch y with no upstream token and a branch z whose upstream is the
`(null)` marker. -/
def wC4 : World :=
  { isRepo := true, hasUncommitted := false, current := "main",
    localBranchesQ := none,
    branchExists := fun _ => true,
    hasUnpushed := fun _ => false,
    remoteHeads := fun _ => some [],
    trackingQ := some [["y"], ["z", "(null)"]],
    checkoutOk := fun _ => true,
    mergeOk := fun _ _ _ => true,
    deleteOk := fun _ _ => true,
    checkoutTrackOk := fun _ _ => true,
    fetchPruneOk := true, confirmAnswer := true }

/-- Clean options with nothing ignored or protected. -/
def oC4 : CleanOpts :=
  { ignore := [], force := false, listOnly := false, silent := false,
    protectedBranches := [] }

/-- A tracked branch x over a remote whose listing query fails. -/
def wC6 : World :=
  { isRepo := true, hasUncommitted := false, current := "main",
    localBranchesQ := none,
    branchExists := fun _ => true,
    hasUnpushed := fun _ => false,
    remoteHeads := fun _ => none,
    trackingQ := some [["x", "origin/x"]],
    checkoutOk := fun _ => true,
    mergeOk := fun _ _ _ => true,
    deleteOk := fun _ _ => true,
    checkoutTrackOk := fun _ _ => true,
    fetchPruneOk := true, confirmAnswer := true }

/-- Clean options with main protected. -/
def oC6 : CleanOpts :=
  { ignore := [], force := false, listOnly := false, silent := false,
    protectedBranches := ["main"] }

/-- A repository where every operation succeeds and origin advertises one
branch a. -/
def wC7 : World :=
  { isRepo := true, hasUncommitted := false, current := "main",
    localBranchesQ := some ["main", "dev", "hotfix"],
    branchExists := fun _ => true,
    hasUnpushed := fun _ => false,
    remoteHeads := fun r => if r == "origin" then some ["a"] else none,
    trackingQ := none,
    checkoutOk := fun _ => true,
    mergeOk := fun _ _ _ => true,
    deleteOk := fun _ _ => true,
    checkoutTrackOk := fun _ _ => true,
    fetchPruneOk := true, confirmAnswer := true }

/-- Merge hotfix into dev. -/
def oC7m : MergeOpts :=
  { source := "hotfix", target := ["dev"], exclude := [], ffOnly := true,
    silent := false }

/-- Fetch from origin with nothing ignored. -/
def oC7f : FetchOpts :=
  { remote := "origin", ignore := [], force := false, silent := false }

/-- A repository in which the merge source branch does not exist. -/
def wC8 : World :=
  { isRepo := true, hasUncommitted := false, current := "main",
    localBranchesQ := some ["main"],
    branchExists := fun _ => false,
    hasUnpushed := fun _ => false,
    remoteHeads := fun _ => none,
    trackingQ := none,
    checkoutOk := fun _ => true,
    mergeOk := fun _ _ _ => true,
    deleteOk := fun _ _ => true,
    checkoutTrackOk := fun _ _ => true,
    fetchPruneOk := true, confirmAnswer := true }

/-- Merge options naming the missing source hotfix. -/
def oC8m : MergeOpts :=
  { source := "hotfix", target := ["dev"], exclude := [], ffOnly := true,
    silent := false }

/-- A clean run that finds one stale branch x and a user who answers no at
the confirmation prompt. -/
def wC9 : World :=
  { isRepo := true, hasUncommitted := false, current := "main",
    localBranchesQ := none,
    branchExists := fun _ => true,
    hasUnpushed := fun _ => false,
    remoteHeads := fun _ => some [],
    trackingQ := some [["x", "origin/x"]],
    checkoutOk := fun _ => true,
    mergeOk := fun _ _ _ => true,
    deleteOk := fun _ _ => true,
    checkoutTrackOk := fun _ _ => true,
    fetchPruneOk := true, confirmAnswer := false }

/-- Interactive clean options (not silent, not list-only). -/
def oC9 : CleanOpts :=
  { ignore := [], force := false, listOnly := false, silent := false,
    protectedBranches := ["main"] }

/-- Local x tracks origin/foo while origin's only head is bar/foo, so the
pattern query tail-matches but exact membership fails. -/
def wC10x : World :=
  { isRepo := true, hasUncommitted := false, current := "main",
    localBranchesQ := none,
    branchExists := fun _ => true,
    hasUnpushed := fun _ => false,
    remoteHeads := fun r => if r == "origin" then some ["bar/foo"] else none,
    trackingQ := some [["x", "origin/foo"]],
    checkoutOk := fun _ => true,
    mergeOk := fun _ _ _ => true,
    deleteOk := fun _ _ => true,
    checkoutTrackOk := fun _ _ => true,
    fetchPruneOk := true, confirmAnswer := true }

/-- Clean options with main protected. -/
def oC10x : CleanOpts :=
  { ignore := [], force := false, listOnly := false, silent := false,
    protectedBranches := ["main"] }

/-- Local x tracks origin/x and every remote listing fails. -/
def wC10w : World :=
  { isRepo := true, hasUncommitted := false, current := "main",
    localBranchesQ := none,
    branchExists := fun _ => true,
    hasUnpushed := fun _ => false,
    remoteHeads := fun _ => none,
    trackingQ := some [["x", "origin/x"]],
    checkoutOk := fun _ => true,
    mergeOk := fun _ _ _ => true,
    deleteOk := fun _ _ => true,
    checkoutTrackOk := fun _ _ => true,
    fetchPruneOk := true, confirmAnswer := true }

/-- Clean options with main protected. -/
def oC10w : CleanOpts :=
  { ignore := [], force := false, listOnly := false, silent := false,
    protectedBranches := ["main"] }

theorem dedup_foldl_mem (l : List String) :
    ∀ (acc : List String) (a : String),
      (a ∈ l.foldl (fun acc r => if r ∈ acc then acc else acc ++ [r]) acc) ↔
        a ∈ acc ∨ a ∈ l := by
  induction l with
  | nil => simp
  | cons x xs ih =>
      intro acc a
      simp only [List.foldl_cons]
      by_cases hx : x ∈ acc
      · rw [if_pos hx, ih]
        simp only [List.mem_cons]
        constructor
        · rintro (h | h)
          · exact Or.inl h
          · exact Or.inr (Or.inr h)
        · rintro (h | h | h)
          · exact Or.inl h
          · exact Or.inl (h ▸ hx)
          · exact Or.inr h
      · rw [if_neg hx, ih]
        simp only [List.mem_append, List.mem_singleton, List.mem_cons]
        tauto

theorem dedup_foldl_nodup (l : List String) :
    ∀ acc : List String, acc.Nodup →
      (l.foldl (fun acc r => if r ∈ acc then acc else acc ++ [r]) acc).Nodup := by
  induction l with
  | nil => intro acc h; simpa using h
  | cons x xs ih =>
      intro acc h
      simp only [List.foldl_cons]
      by_cases hx : x ∈ acc
      · rw [if_pos hx]; exact ih acc h
      · rw [if_neg hx]
        refine ih (acc ++ [x]) ?_
        refine List.nodup_append.mpr ⟨h, List.nodup_singleton x, ?_⟩
        intro a ha hb
        rw [List.mem_singleton] at hb
        exact hx (hb ▸ ha)

theorem insertionDedup_mem {l : List String} {a : String} :
    a ∈ insertionDedup l ↔ a ∈ l := by
  unfold insertionDedup
  rw [dedup_foldl_mem]
  simp

theorem insertionDedup_nodup (l : List String) : (insertionDedup l).Nodup :=
  dedup_foldl_nodup l [] List.nodup_nil

theorem mem_parseTracking {lines : List (List String)} {b u : String} :
    (b, u) ∈ parseTracking lines ↔
      ∃ toks ∈ lines, (toks.get? 0).getD "" = b ∧ (toks.get? 1).getD "" = u ∧
        b ≠ "" ∧ u ≠ "" ∧ u ≠ "(null)" := by
  unfold parseTracking
  rw [List.mem_filterMap]
  constructor
  · rintro ⟨toks, hmem, hf⟩
    split_ifs at hf with hc
    · simp only [Option.some.injEq, Prod.mk.injEq] at hf
      exact ⟨toks, hmem, hf.1, hf.2, hf.1 ▸ hc.1, hf.2 ▸ hc.2.1,
        hf.2 ▸ hc.2.2⟩
  · rintro ⟨toks, hmem, h0, h1, hb, hu, hn⟩
    refine ⟨toks, hmem, ?_⟩
    rw [if_pos ⟨h0 ▸ hb, h1 ▸ hu, h1 ▸ hn⟩, h0, h1]

theorem mem_cleanPlanCore {chk : String → String → Bool} {cur : String}
    {o : CleanOpts} {pairs : List (String × String)} {b : String} :
    b ∈ cleanPlanCore chk cur o pairs ↔
      ∃ u, (b, u) ∈ pairs ∧ skipBranch cur o b = false ∧
        chk (splitUpstream u).1 (splitUpstream u).2 = false := by
  unfold cleanPlanCore
  rw [List.mem_filterMap]
  constructor
  · rintro ⟨⟨b', u⟩, hmem, hf⟩
    split_ifs at hf with h1 h2
    · simp only [Option.some.injEq] at hf
      subst hf
      simp only [Bool.not_eq_true] at h1 h2
      exact ⟨u, hmem, h1, h2⟩
  · rintro ⟨u, hmem, hskip, hchk⟩
    refine ⟨(b, u), hmem, ?_⟩
    simp only
    rw [if_neg (by simp [hskip]), if_neg (by simp [hchk])]

theorem skipBranch_eq_false {cur : String} {o : CleanOpts} {b : String} :
    skipBranch cur o b = false ↔
      b ≠ cur ∧ b ∉ o.ignore ∧ b ∉ o.protectedBranches := by
  unfold skipBranch
  simp
  tauto

theorem lookup_buildRemoteCache {w : World} {remotes : List String}
    {r : String} (h : r ∈ remotes) :
    (buildRemoteCache w remotes).lookup r =
      some ((w.remoteHeads r).getD []) := by
  induction remotes with
  | nil => cases h
  | cons x xs ih =>
      unfold buildRemoteCache
      by_cases hx : r = x
      · subst hx
        simp [List.lookup]
      · rcases List.mem_cons.mp h with h' | h'
        · exact absurd h' hx
        · simp only [List.map_cons, List.lookup,
            beq_eq_false_iff_ne.mpr hx]
          exact ih h'

theorem filterMap_lsRemoteHeads (l : List String) :
    (l.map ReadQ.lsRemoteHeadsQ).filterMap (fun q =>
      match q with
      | ReadQ.lsRemoteHeadsQ r => some r
      | _ => none) = l := by
  induction l with
  | nil => rfl
  | cons x xs ih => simp [List.filterMap_cons, ih]

theorem filterMap_congr_mem {α β : Type} {l : List α} {f g : α → Option β}
    (h : ∀ a ∈ l, f a = g a) : l.filterMap f = l.filterMap g := by
  induction l with
  | nil => rfl
  | cons x xs ih =>
      rw [List.filterMap_cons, List.filterMap_cons, h x (by simp),
        ih (fun a ha => h a (List.mem_cons_of_mem x ha))]

/-- C1: the merge fan-out was specified to check each qualifying target out
and merge the source into it; on a repository with source hotfix, target
dev and original branch main it instead checks the source out and merges
the target into it (`mergeBranch` is invoked with its `source` and `target`
arguments swapped), as the executed command trace shows. -/
theorem C1_merge_swaps_source_and_target :
    (mergeToBranches wC1 oC1).muts =
      [GitCmd.checkout "hotfix", GitCmd.merge true "dev",
       GitCmd.checkout "main"] := by
  decide

/-- C2 counterexample: a merge run whose resolved target list contains
main, the current branch and a default-protected branch, so merge plans are
not filtered by protection or by the current branch. -/
theorem C2_merge_plan_contains_protected_cex :
    wC2x.current = "main" ∧ "main" ∈ defaultProtectedBranches ∧
      resolveMergeTargets wC2x oC2x = some ["main", "dev"] := by
  decide

/-- C2 (amended): the clean deletion plan, in either implementation, never
contains the current branch, an ignored branch or a protected branch,
whatever the remote state and the force flag; merge target lists and fetch
creation lists are only filtered by their source/exclude and ignore
parameters. -/
theorem C2_clean_plan_protection :
    ∀ (w : World) (o : CleanOpts) (b : String),
      b ∈ cleanV1Plan w o ∨ b ∈ cleanV2Plan w o →
      b ≠ w.current ∧ b ∉ o.ignore ∧ b ∉ o.protectedBranches := by
  intro w o b h
  rcases htr : w.trackingQ with _ | lines
  · rcases h with h | h
    · unfold cleanV1Plan at h
      rw [htr] at h
      simp at h
    · unfold cleanV2Plan at h
      rw [htr] at h
      simp at h
  · rcases h with h | h
    · unfold cleanV1Plan at h
      rw [htr] at h
      rcases mem_cleanPlanCore.mp h with ⟨u, _, hskip, _⟩
      exact skipBranch_eq_false.mp hskip
    · unfold cleanV2Plan at h
      rw [htr] at h
      rcases mem_cleanPlanCore.mp h with ⟨u, _, hskip, _⟩
      exact skipBranch_eq_false.mp hskip

/-- C2 witness: a force-on clean run whose plan contains x, and x is indeed
neither the current branch nor ignored nor protected. -/
theorem C2_clean_plan_protection_witness :
    ("x" ∈ cleanV1Plan wC2w oC2w ∨ "x" ∈ cleanV2Plan wC2w oC2w) ∧
      ("x" ≠ wC2w.current ∧ "x" ∉ oC2w.ignore ∧
        "x" ∉ oC2w.protectedBranches) :=
  ⟨Or.inl (by decide),
    C2_clean_plan_protection wC2w oC2w "x" (Or.inl (by decide))⟩

/-- C3: a batched clean run that obtains tracking pairs issues exactly the
first-occurrence-deduplicated list of the pairs' remotes as its
remote-listing queries - one query per distinct remote, however many pairs
share a remote, and no further remote listing afterwards. -/
theorem C3_one_query_per_remote :
    ∀ (w : World) (o : CleanOpts) (lines : List (List String)),
      w.isRepo = true → w.trackingQ = some lines →
      remoteQueriesOf (cleanBranchesV2 w o) =
        insertionDedup
          ((parseTracking lines).map (fun p => (splitUpstream p.2).1)) ∧
      ∀ r : String,
        (remoteQueriesOf (cleanBranchesV2 w o)).count r =
          if r ∈ (parseTracking lines).map (fun p => (splitUpstream p.2).1)
          then 1 else 0 := by
  intro w o lines hrepo htr
  have hq : remoteQueriesOf (cleanBranchesV2 w o) =
      insertionDedup
        ((parseTracking lines).map (fun p => (splitUpstream p.2).1)) := by
    unfold cleanBranchesV2
    rw [hrepo]
    simp only [if_true]
    rw [htr]
    unfold remoteQueriesOf remotesOf
    split_ifs <;>
      simp only [List.filterMap_append, filterMap_lsRemoteHeads,
        List.filterMap_cons, List.filterMap_nil, List.nil_append]
  refine ⟨hq, fun r => ?_⟩
  rw [hq]
  by_cases hr :
      r ∈ (parseTracking lines).map (fun p => (splitUpstream p.2).1)
  · rw [if_pos hr]
    exact List.count_eq_one_of_mem (insertionDedup_nodup _)
      (insertionDedup_mem.mpr hr)
  · rw [if_neg hr]
    exact List.count_eq_zero.mpr (fun hmem => hr (insertionDedup_mem.mp hmem))

/-- C3 witness: three tracked branches over remotes origin, origin and up
give exactly the two listing queries origin then up. -/
theorem C3_one_query_per_remote_witness :
    remoteQueriesOf (cleanBranchesV2 wC3 oC3) =
      insertionDedup ((parseTracking [["a", "origin/a"], ["b", "origin/b"],
        ["c", "up/c"]]).map (fun p => (splitUpstream p.2).1)) :=
  (C3_one_query_per_remote wC3 oC3
    [["a", "origin/a"], ["b", "origin/b"], ["c", "up/c"]] rfl rfl).1

/-- C4: a local branch all of whose tracking lines lack a present upstream
token (missing, empty, or the `(null)` marker) never enters the deletion
plan of either clean implementation. -/
theorem C4_no_upstream_never_planned :
    ∀ (w : World) (o : CleanOpts) (lines : List (List String)) (b : String),
      w.trackingQ = some lines →
      (∀ toks ∈ lines, (toks.get? 0).getD "" = b →
        (toks.get? 1).getD "" = "" ∨ (toks.get? 1).getD "" = "(null)") →
      b ∉ cleanV1Plan w o ∧ b ∉ cleanV2Plan w o := by
  intro w o lines b htr hnoup
  have key : ∀ u : String, (b, u) ∈ parseTracking lines → False := by
    intro u hmem
    rcases mem_parseTracking.mp hmem with ⟨toks, hl, h0, h1, _, hu, hn⟩
    rcases hnoup toks hl h0 with h | h
    · exact hu (h1 ▸ h)
    · exact hn (h1 ▸ h)
  constructor
  · intro h
    unfold cleanV1Plan at h
    rw [htr] at h
    rcases mem_cleanPlanCore.mp h with ⟨u, hmem, _, _⟩
    exact key u hmem
  · intro h
    unfold cleanV2Plan at h
    rw [htr] at h
    rcases mem_cleanPlanCore.mp h with ⟨u, hmem, _, _⟩
    exact key u hmem

/-- C4 witness: branch y has a line with no upstream token and branch z one
with the `(null)` marker; y is planned by neither implementation. -/
theorem C4_no_upstream_never_planned_witness :
    wC4.trackingQ = some [["y"], ["z", "(null)"]] ∧
      "y" ∉ cleanV1Plan wC4 oC4 ∧ "y" ∉ cleanV2Plan wC4 oC4 :=
  ⟨rfl, C4_no_upstream_never_planned wC4 oC4 [["y"], ["z", "(null)"]] "y"
    rfl (by decide)⟩

theorem mergeBranch_muts_indep (w : World) (c c' s t : String) (ff : Bool) :
    (mergeBranch w c s t ff).muts = (mergeBranch w c' s t ff).muts := by
  unfold mergeBranch
  split_ifs <;> rfl

/-- C5: none of the three batch loops stops early: the clean deletion loop
attempts one delete per planned branch in plan order and counts every item,
the merge loop attempts and counts every resolved target, and the fetch
loop counts every non-ignored remote branch; in each case the success and
failure counters sum to the number of items. -/
theorem C5_batch_never_short_circuits :
    (∀ (w : World) (force : Bool) (branches : List String),
      (runDeleteLoop w force branches).succeeded +
          (runDeleteLoop w force branches).failed = branches.length ∧
        (runDeleteLoop w force branches).muts =
          branches.map (fun b => GitCmd.deleteBr b force)) ∧
    (∀ (w : World) (ff : Bool) (src cur : String) (ts : List String),
      (runMergeLoop w ff src cur ts).succeeded +
          (runMergeLoop w ff src cur ts).failed = ts.length ∧
        (runMergeLoop w ff src cur ts).muts =
          ts.flatMap (fun t => (mergeBranch w cur t src ff).muts)) ∧
    (∀ (w : World) (r : String) (force : Bool) (ign : List String)
        (cur : String) (bs : List String),
      (runFetchLoop w r force ign cur bs).succeeded +
          (runFetchLoop w r force ign cur bs).failed =
        (bs.filter (fun b => !ign.contains b)).length) := by
  refine ⟨?_, ?_, ?_⟩
  · intro w force branches
    induction branches with
    | nil => exact ⟨rfl, rfl⟩
    | cons b bs ih =>
        unfold runDeleteLoop
        refine ⟨?_, ?_⟩
        · simp only [List.length_cons]
          rcases h : w.deleteOk b force <;> simp <;> omega
        · simp only [List.map_cons]
          rw [ih.2]
  · intro w ff src cur ts
    induction ts generalizing cur with
    | nil => exact ⟨rfl, rfl⟩
    | cons t ts ih =>
        unfold runMergeLoop
        refine ⟨?_, ?_⟩
        · have h1 := (ih (mergeBranch w cur t src ff).cur).1
          simp only [List.length_cons]
          rcases h : (mergeBranch w cur t src ff).ok <;> simp <;> omega
        · simp only [List.flatMap_cons]
          rw [(ih (mergeBranch w cur t src ff).cur).2]
          rw [funext (fun x => mergeBranch_muts_indep w
            (mergeBranch w cur t src ff).cur cur x src ff)]
  · intro w r force ign cur bs
    induction bs generalizing cur with
    | nil => rfl
    | cons b bs ih =>
        unfold runFetchLoop
        by_cases hb : ign.contains b
        · simp only [hb, if_true, List.filter_cons]
          rw [ih cur]
          simp [hb]
        · have hb' : b ∉ ign := by simpa using hb
          have h1 := ih (createTrackingBranch w b r force cur).cur
          rcases h : (createTrackingBranch w b r force cur).ok
          all_goals simp [hb', h] at h1 ⊢
          all_goals omega

/-- C6: when a remote's listing query fails, the batched clean treats it as
an empty branch set, so every tracked branch of that remote that passes the
policy filter (not current, not ignored, not protected) enters the deletion
plan. -/
theorem C6_failed_remote_listing_plans_deletion :
    ∀ (w : World) (o : CleanOpts) (lines : List (List String))
      (b u : String),
      w.trackingQ = some lines → (b, u) ∈ parseTracking lines →
      w.remoteHeads (splitUpstream u).1 = none →
      b ≠ w.current → b ∉ o.ignore → b ∉ o.protectedBranches →
      b ∈ cleanV2Plan w o := by
  intro w o lines b u htr hmem hfail hcur hign hprot
  unfold cleanV2Plan
  rw [htr]
  refine mem_cleanPlanCore.mpr
    ⟨u, hmem, skipBranch_eq_false.mpr ⟨hcur, hign, hprot⟩, ?_⟩
  have hrm : (splitUpstream u).1 ∈ remotesOf (parseTracking lines) := by
    unfold remotesOf
    exact insertionDedup_mem.mpr
      (List.mem_map.mpr ⟨(b, u), hmem, rfl⟩)
  unfold cacheHit
  rw [lookup_buildRemoteCache hrm, hfail]
  rfl

/-- C6 witness: x tracks origin/x, the origin listing fails, x passes the
policy filter, and x is planned for deletion. -/
theorem C6_failed_remote_listing_plans_deletion_witness :
    wC6.remoteHeads (splitUpstream "origin/x").1 = none ∧
      "x" ∈ cleanV2Plan wC6 oC6 :=
  ⟨rfl, C6_failed_remote_listing_plans_deletion wC6 oC6 [["x", "origin/x"]]
    "x" "origin/x" rfl (by decide) rfl (by decide) (by decide) (by decide)⟩

/-- C7: for merge and for fetch, once the preconditions pass and the
current branch is captured, the run ends back on the captured branch unless
the final restoration checkout itself fails, in which case a restore error
is logged; in every case the reported counts are exactly those of the
per-item loop, so a restoration failure never changes the reported
outcome. -/
theorem C7_restores_original_branch :
    (∀ (w : World) (o : MergeOpts),
      w.isRepo = true → w.hasUncommitted = false →
      w.branchExists o.source = true → w.hasUnpushed o.source = false →
      w.current ≠ "" →
      ((mergeToBranches w o).current = w.current ∨
        (w.checkoutOk w.current = false ∧
          LogMsg.restoreFailed ∈ (mergeToBranches w o).log)) ∧
      (mergeToBranches w o).succeeded = (mergeLoopOf w o).succeeded ∧
      (mergeToBranches w o).failed = (mergeLoopOf w o).failed) ∧
    (∀ (w : World) (o : FetchOpts),
      w.isRepo = true → w.hasUncommitted = false → w.current ≠ "" →
      ((fetchAllBranches w o).current = w.current ∨
        (w.checkoutOk w.current = false ∧
          LogMsg.restoreFailed ∈ (fetchAllBranches w o).log)) ∧
      (fetchAllBranches w o).succeeded = (fetchLoopOf w o).succeeded ∧
      (fetchAllBranches w o).failed = (fetchLoopOf w o).failed) := by
  constructor
  · intro w o hrepo hclean hsrc hunp _
    unfold mergeToBranches mergeLoopOf
    rw [hrepo, hclean, hsrc, hunp]
    simp only [if_true, Bool.not_true, Bool.false_eq_true, if_false]
    rcases hres : resolveMergeTargets w o with _ | ts
    · simp only [Option.getD_none]
      refine ⟨Or.inl (by trivial), by trivial, by trivial⟩
    · simp only [Option.getD_some]
      by_cases hts : ts.isEmpty
      · rw [if_pos hts]
        rw [List.isEmpty_iff.mp hts]
        refine ⟨Or.inl (by trivial), by trivial, by trivial⟩
      · rw [if_neg hts]
        rcases hco : w.checkoutOk w.current
        · simp only [Bool.false_eq_true, if_false]
          refine ⟨Or.inr ⟨by trivial, by simp⟩, by trivial, by trivial⟩
        · simp only [if_true]
          refine ⟨Or.inl (by trivial), by trivial, by trivial⟩
  · intro w o hrepo hclean _
    unfold fetchAllBranches fetchLoopOf
    rw [hrepo, hclean]
    simp only [if_true, Bool.not_true, Bool.false_eq_true, if_false]
    by_cases hrb : ((w.remoteHeads o.remote).getD []).isEmpty
    · rw [if_pos hrb]
      rw [List.isEmpty_iff.mp hrb]
      refine ⟨Or.inl (by trivial), by trivial, by trivial⟩
    · rw [if_neg hrb]
      rcases hco : w.checkoutOk w.current
      · simp only [Bool.false_eq_true, if_false]
        refine ⟨Or.inr ⟨by trivial, by simp⟩, by trivial, by trivial⟩
      · simp only [if_true]
        refine ⟨Or.inl (by trivial), by trivial, by trivial⟩

/-- C7 witness: a merge of hotfix into dev and a fetch from origin, both on
a fully healthy repository, report exactly their loop counts. -/
theorem C7_restores_original_branch_witness :
    (mergeToBranches wC7 oC7m).succeeded = (mergeLoopOf wC7 oC7m).succeeded ∧
      (fetchAllBranches wC7 oC7f).succeeded =
        (fetchLoopOf wC7 oC7f).succeeded :=
  ⟨(C7_restores_original_branch.1 wC7 oC7m rfl rfl rfl rfl
      (by decide)).2.1,
    (C7_restores_original_branch.2 wC7 oC7f rfl rfl (by decide)).2.1⟩

/-- C8: a missing or unpushed merge source aborts the whole merge run
before any mutation - no commands execute, nothing is counted, the checked
out branch is untouched - and in every merge run the unpushed-commits check
on the source is issued at most once, never per target. -/
theorem C8_source_precondition_upfront :
    (∀ (w : World) (o : MergeOpts),
      w.branchExists o.source = false ∨ w.hasUnpushed o.source = true →
      (mergeToBranches w o).muts = [] ∧
      (mergeToBranches w o).succeeded = 0 ∧
      (mergeToBranches w o).failed = 0 ∧
      (mergeToBranches w o).current = w.current) ∧
    (∀ (w : World) (o : MergeOpts),
      ((mergeToBranches w o).reads.count (ReadQ.unpushedQ o.source)) ≤ 1) := by
  constructor
  · intro w o hpre
    unfold mergeToBranches
    rcases hrepo : w.isRepo
    · simp only [Bool.false_eq_true, if_false]
      refine ⟨by trivial, by trivial, by trivial, by trivial⟩
    · simp only [if_true]
      rcases hclean : w.hasUncommitted
      · simp only [Bool.false_eq_true, if_false]
        rcases hsrc : w.branchExists o.source
        · simp only [Bool.not_false, if_true]
          refine ⟨by trivial, by trivial, by trivial, by trivial⟩
        · simp only [Bool.not_true, Bool.false_eq_true, if_false]
          rcases hunp : w.hasUnpushed o.source
          · rcases hpre with h | h
            · rw [hsrc] at h
              cases h
            · rw [hunp] at h
              cases h
          · simp only [if_true]
            refine ⟨by trivial, by trivial, by trivial, by trivial⟩
      · simp only [if_true]
        refine ⟨by trivial, by trivial, by trivial, by trivial⟩
  · intro w o
    unfold mergeToBranches
    rcases hrepo : w.isRepo
    · simp
    · simp only [if_true]
      rcases hclean : w.hasUncommitted
      · simp only [Bool.false_eq_true, if_false]
        rcases hsrc : w.branchExists o.source
        · simp
        · simp only [Bool.not_true, Bool.false_eq_true, if_false]
          rcases hunp : w.hasUnpushed o.source
          · simp only [Bool.false_eq_true, if_false]
            rcases hres : resolveMergeTargets w o with _ | ts
            · by_cases hte : o.target.isEmpty <;>
                simp [hte, List.count_cons, List.count_append]
            · by_cases hte : o.target.isEmpty <;>
                by_cases hts : ts.isEmpty <;>
                rcases hco : w.checkoutOk w.current <;>
                simp [hte, hts, hco, List.count_cons, List.count_append]
          · simp [List.count_cons]
      · simp

/-- C8 witness: merging from the nonexistent source hotfix executes no
command at all. -/
theorem C8_source_precondition_upfront_witness :
    (wC8.branchExists oC8m.source = false ∨
      wC8.hasUnpushed oC8m.source = true) ∧
      (mergeToBranches wC8 oC8m).muts = [] :=
  ⟨Or.inl rfl,
    (C8_source_precondition_upfront.1 wC8 oC8m (Or.inl rfl)).1⟩

/-- C9 counterexample: an interactive batched clean run that finds the
stale branch x and whose user declines the confirmation calls
`process.exit(0)`, not exit code 1. -/
theorem C9_decline_exits_zero_cex :
    wC9.confirmAnswer = false ∧ oC9.silent = false ∧ oC9.listOnly = false ∧
      cleanV2Plan wC9 oC9 = ["x"] ∧
      observedExit (cleanBranchesV2 wC9 oC9) = 0 := by
  decide

/-- C9 (amended): the batched clean implementation ends the process with
exit code 0 on every path, including a declined confirmation; the
per-branch implementation exits 1 exactly when the user declines the
confirmation and 0 on every other path (precondition failures return
normally, leaving the default exit code 0). -/
theorem C9_exit_codes :
    ∀ (w : World) (o : CleanOpts),
      observedExit (cleanBranchesV2 w o) = 0 ∧
      observedExit (cleanBranchesV1 w o) =
        (if cleanV1Cancelled w o = true then 1 else 0) := by
  intro w o
  unfold observedExit cleanBranchesV2 cleanBranchesV1 cleanV1Cancelled
  rcases hr : w.isRepo
  · simp
  · rcases ht : w.trackingQ with _ | lines
    · simp
    · dsimp only
      constructor
      · split_ifs <;> rfl
      · split_ifs with h1 h2 h3 <;> simp_all

/-- C10 counterexample: with local x tracking origin/foo and origin's only
head bar/foo, the per-branch pattern query tail-matches bar/foo and keeps
x, while the batched exact-membership lookup misses and plans x for
deletion - the two implementations compute different plans. -/
theorem C10_plans_differ_cex :
    cleanV1Plan wC10x oC10x = [] ∧ cleanV2Plan wC10x oC10x = ["x"] := by
  decide

/-- C10 (amended): whenever every tracked pair's per-branch ls-remote
pattern query agrees with exact membership of its remote-branch name in
the remote's advertised heads (in particular the name is non-empty and no
head carries it as a proper path-suffix), the two clean implementations
compute the same deletion plan; remote-query failures are covered with no
extra hypothesis, both sides then classifying the remote's tracked
branches as stale. -/
theorem C10_plans_agree_under_exact_match :
    ∀ (w : World) (o : CleanOpts) (lines : List (List String)),
      w.trackingQ = some lines →
      (∀ p ∈ parseTracking lines, ∀ heads : List String,
        w.remoteHeads (splitUpstream p.2).1 = some heads →
        lsRemotePatternHit heads (splitUpstream p.2).2 =
          heads.contains (splitUpstream p.2).2) →
      cleanV1Plan w o = cleanV2Plan w o := by
  intro w o lines htr hagree
  unfold cleanV1Plan cleanV2Plan
  rw [htr]
  unfold cleanPlanCore
  apply filterMap_congr_mem
  intro p hp
  dsimp only
  by_cases hskip : skipBranch w.current o p.1 = true
  · rw [if_pos hskip, if_pos hskip]
  · rw [if_neg hskip, if_neg hskip]
    have hrm : (splitUpstream p.2).1 ∈ remotesOf (parseTracking lines) :=
      insertionDedup_mem.mpr (List.mem_map.mpr ⟨p, hp, rfl⟩)
    have hchk :
        checkRemoteBranch w (splitUpstream p.2).2 (splitUpstream p.2).1 =
          cacheHit (buildRemoteCache w (remotesOf (parseTracking lines)))
            (splitUpstream p.2).1 (splitUpstream p.2).2 := by
      unfold checkRemoteBranch cacheHit
      rw [lookup_buildRemoteCache hrm]
      rcases hrh : w.remoteHeads (splitUpstream p.2).1 with _ | heads
      · rfl
      · simp only [Option.getD_some]
        exact hagree p hp heads hrh
    rw [hchk]

/-- C10 witness: with one tracked pair and every remote listing failing,
both implementations plan the same deletion list. -/
theorem C10_plans_agree_under_exact_match_witness :
    cleanV1Plan wC10w oC10w = cleanV2Plan wC10w oC10w :=
  C10_plans_agree_under_exact_match wC10w oC10w [["x", "origin/x"]] rfl
    (fun _ _ _ h => Option.noConfusion h)

end BranchKeeper
